import Mathlib

/-!
Shallow embedding of the `tracelog` package: a structured-logging facade
(`TraceLogger`) that correlates log entries with tracing spans.

The embedding translates the Go source faithfully:
  * dynamic (`interface`-typed) arguments become the closed inductive `Val`;
  * the underlying structured logger (an injected external collaborator) is
    modelled by `ZapLogger`, a value holding the accumulated name scopes, the
    accumulated persistent fields, and the outcome its flush operation will
    report;
  * a propagation context is modelled by `Ctx`, carrying the optionally
    active span (`trace.SpanFromContext` returns the active span or none);
  * side effects on the base logger (the diagnostic self-log entries emitted
    by `sweetenFields`) and on spans (`SetAttributes`) are returned
    explicitly as values.
-/

namespace Tracelog

/-- Dynamic value universe for `interface` arguments: a string, an integer,
an already-typed structured field (`zap.Field`, key plus value), a trace
attribute (`attribute.KeyValue`), or some other opaque value. -/
inductive Val where
  | str : String → Val
  | int : Int → Val
  | fld : String → Val → Val
  | attr : String → Val → Val
  | other : Nat → Val
deriving DecidableEq, Repr

/-- A structured log field: name paired with a value. -/
abbrev Field := String × Val

/-- A trace attribute destined for a span: name paired with a value. -/
abbrev Attr := String × Val

/-- Does the dynamic value type-assert to a string (`key.(string)`)? -/
def Val.isStr : Val → Bool
  | .str _ => true
  | _ => false

/-- Does the dynamic value type-assert to a typed field (`args[i].(zap.Field)`)? -/
def Val.isFld : Val → Bool
  | .fld _ _ => true
  | _ => false

/-- Projection used to state order-preserving extraction of typed fields. -/
def Val.fldOf : Val → Option Field
  | .fld k v => some (k, v)
  | _ => none

/-- Projection used to state order-preserving extraction of trace attributes. -/
def Val.attrOf : Val → Option Attr
  | .attr k v => some (k, v)
  | _ => none

/-- A trace span: its trace identifier and span identifier (rendered as
strings, as `spanCtx.TraceID().String()` does) and the ordered attributes
attached to it so far. -/
structure Span where
  traceID : String
  spanID : String
  attrs : List Attr
deriving DecidableEq, Repr

/-- The external span-attribute operation: attaches the given attributes to
the span, in order. -/
def Span.SetAttributes (s : Span) (tags : List Attr) : Span :=
  { s with attrs := s.attrs ++ tags }

/-- A propagation context: carries the active span, if any.  A zero-value /
background context carries none. -/
structure Ctx where
  span : Option Span
deriving DecidableEq, Repr

/-- The Go zero value of a context field (no context bound, no span). -/
def Ctx.empty : Ctx := { span := none }

/-- Model of `trace.SpanFromContext`: the active span recorded in the
context, or none when the context never carried one. -/
def SpanFromContext (c : Ctx) : Option Span := c.span

/-- Model of a wrapped Go error: either an opaque error from the external
collaborator, or a `fmt.Errorf`-with-`%w` wrapper that preserves the
underlying error inside. -/
inductive GoErr where
  | base : Nat → GoErr
  | wrapped : String → GoErr → GoErr
deriving DecidableEq, Repr

/-- Model of `errors.Unwrap` on a `%w`-wrapped error. -/
def GoErr.unwrap : GoErr → Option GoErr
  | .wrapped _ e => some e
  | .base _ => none

/-- Model of the injected underlying structured logger (`zap.Logger`):
the accumulated named sub-scopes, the accumulated persistent field set, and
the result its flush operation reports. -/
structure ZapLogger where
  names : List String
  fields : List Field
  syncErr : Option GoErr
deriving DecidableEq, Repr

/-- The underlying logger's `Named`: a child with the sub-scope appended. -/
def ZapLogger.Named (z : ZapLogger) (name : String) : ZapLogger :=
  { z with names := z.names ++ [name] }

/-- The underlying logger's `With`: a child with the fields appended to the
persistent field set. -/
def ZapLogger.With (z : ZapLogger) (args : List Field) : ZapLogger :=
  { z with fields := z.fields ++ args }

/-- The underlying logger's `Sync` (flush): reports its outcome. -/
def ZapLogger.Sync (z : ZapLogger) : Option GoErr := z.syncErr

/-- The `TraceLogger`: a reference to the underlying structured logger plus
the bound propagation context. -/
structure TraceLogger where
  base : ZapLogger
  ctx : Ctx
deriving DecidableEq, Repr

/-- `Named` adds a sub-scope to the logger's name, keeping the bound
context (`{base: tl.base.Named(name), ctx: tl.ctx}`). -/
def TraceLogger.Named (tl : TraceLogger) (name : String) : TraceLogger :=
  { base := tl.base.Named name, ctx := tl.ctx }

/-- `With` adds strongly-typed fields to the logging context.  The struct
literal `&TraceLogger{base: tl.base.With(args...)}` leaves the `ctx` field
at its zero value. -/
def TraceLogger.With (tl : TraceLogger) (args : List Field) : TraceLogger :=
  { base := tl.base.With args, ctx := Ctx.empty }

/-- The four span-derived correlation fields added on binding a context
carrying an active span. -/
def spanFields (s : Span) : List Field :=
  [("traceID", Val.str s.traceID), ("dd.traceID", Val.str s.traceID),
   ("spanID", Val.str s.spanID), ("dd.spanID", Val.str s.spanID)]

/-- `SetContext` associates a context with the logger: it builds the new
logger `l` with the given context, then, if the context carries an active
span, returns `l.With` of the four span-derived fields; if no span is
active the Go code executes `return tl` — it returns the receiver. -/
def TraceLogger.SetContext (tl : TraceLogger) (ctx : Ctx) : TraceLogger :=
  let l : TraceLogger := { base := tl.base, ctx := ctx }
  match SpanFromContext l.ctx with
  | none => tl
  | some span => l.With (spanFields span)

/-- `tagSpan`: looks up the active span in the context; when none is active
it returns without doing anything, otherwise it attaches all given
attributes to the span.  The span mutation is modelled by returning the
updated context. -/
def tagSpan (ctx : Ctx) (tags : List Attr) : Ctx :=
  match SpanFromContext ctx with
  | none => ctx
  | some span => { span := some (span.SetAttributes tags) }

/-- `parseArguments` (strict flavor): walks the argument list once; a trace
attribute is appended to the tags, a typed field to the fields, anything
else falls through the type switch and is ignored. -/
def parseArguments : List Val → List Field × List Attr
  | [] => ([], [])
  | arg :: rest =>
    match arg with
    | .attr k v =>
      ((parseArguments rest).1, (k, v) :: (parseArguments rest).2)
    | .fld k v =>
      ((k, v) :: (parseArguments rest).1, (parseArguments rest).2)
    | _ => parseArguments rest

/-- The observable effect of one leveled call: the entry handed to the
underlying logger (message plus the persistent fields followed by the
call's parsed fields) and the context state after `tagSpan` ran. -/
structure LevelResult where
  msg : String
  fields : List Field
  ctxAfter : Ctx
deriving DecidableEq, Repr

/-- A leveled call (`Info`, representative of all levels): classifies the
arguments, tags the active span with the attribute output, and forwards the
message and fields to the underlying logger. -/
def TraceLogger.Info (tl : TraceLogger) (msg : String) (args : List Val) : LevelResult :=
  { msg := msg,
    fields := tl.base.fields ++ (parseArguments args).1,
    ctxAfter := tagSpan tl.ctx (parseArguments args).2 }

/-- `Sync` flushes the underlying logger; a failure is returned wrapped as
`fmt.Errorf("failed to sync logger: %w", err)`. -/
def TraceLogger.Sync (tl : TraceLogger) : Option GoErr :=
  match tl.base.Sync with
  | some e => some (.wrapped "failed to sync logger" e)
  | none => none

/-! ## HTTP requests and header propagation

A Go `http.Request` holds its header set as a map reference.  `*r2 = *r`
copies the struct but both structs then reference the same header map, so
the embedding separates the request struct (`Request`, holding a reference
`headerRef`) from the store of header maps (`HeaderWorld`).  Writing
through either struct's reference updates the one shared map. -/

/-- A header set: an ordered association of header names to values. -/
abbrev Header := List (String × String)

/-- Overwrite-or-append a single header (`carrier.Set(key, value)`). -/
def Header.setH (h : Header) (k v : String) : Header :=
  if h.any (fun p => p.1 = k) then
    h.map (fun p => if p.1 = k then (k, v) else p)
  else h ++ [(k, v)]

/-- The request struct: a reference into the header-map store, the request
URL, and the request's context. -/
structure Request where
  headerRef : Nat
  url : String
  ctx : Ctx
deriving DecidableEq, Repr

/-- The store of live header maps, indexed by reference. -/
structure HeaderWorld where
  store : List Header
deriving DecidableEq, Repr

/-- Read the header map a reference points at. -/
def HeaderWorld.get (w : HeaderWorld) (ref : Nat) : Header :=
  (w.store.get? ref).getD []

/-- Write the header map a reference points at. -/
def HeaderWorld.set (w : HeaderWorld) (ref : Nat) (h : Header) : HeaderWorld :=
  ⟨w.store.set ref h⟩

/-- Model of the external HTTP attribute derivation (the `semconv`
helpers): descriptive network and server attributes computed from the
request. -/
def httpAttrs (r : Request) : List Attr :=
  [("net.transport", Val.str "tcp"), ("http.url", Val.str r.url)]

/-- Model of the injected propagation codec (spec section 6), `Inject`
direction: encodes the context's trace identifiers into the textual header
set; a context with no span writes nothing. -/
def injectCodec (ctx : Ctx) (h : Header) : Header :=
  match ctx.span with
  | none => h
  | some s => h.setH "traceparent" (s.traceID ++ "-" ++ s.spanID)

/-- `WithRequest` (the method receiver is unused in the source): makes the
shallow copy `r2` of `r` (same header map reference), tags the active span
of `r2`'s context — the original request's context — with HTTP attributes,
rebinds `r2` to the given context (`WithContext`, again a shallow copy
sharing the header map), injects the propagation headers into `r2`'s
header map, and returns `r2` together with the updated header store. -/
def WithRequest (ctx : Ctx) (r : Request) (w : HeaderWorld) : Request × HeaderWorld :=
  let r2 : Request := r
  let r2 : Request :=
    match SpanFromContext r2.ctx with
    | none => r2
    | some s => { r2 with ctx := { span := some (s.SetAttributes (httpAttrs r2)) } }
  let r2 : Request := { r2 with ctx := ctx }
  let w2 : HeaderWorld := w.set r2.headerRef (injectCodec ctx (w.get r2.headerRef))
  (r2, w2)

/-! ## The loose-argument pairer (`sweetenFields`)

The loop walks the argument list with index `i`: a typed field is consumed
and kept; otherwise, if the element is the last one it is a dangling key —
the loop emits the `_oddNumberErrMsg` diagnostic on the base logger and
breaks; otherwise the element and its successor are consumed as a
key/value pair, producing a field when the key is a string and an
`invalidPair` record otherwise.  After the loop, a single
`_nonStringKeyErrMsg` diagnostic carrying all invalid pairs is emitted when
any were collected.  The diagnostics the base logger receives are returned
as an explicit list. -/

/-- A malformed loose pair: its position in the original argument list, the
offending key and the paired value. -/
structure InvalidPair where
  position : Nat
  key : Val
  value : Val
deriving DecidableEq, Repr

/-- A diagnostic self-log entry emitted on the base logger by the pairer:
either the dangling-key report (`_oddNumberErrMsg` with the ignored
element) or the single non-string-key report (`_nonStringKeyErrMsg` with
the collected invalid pairs). -/
inductive LogEntry where
  | oddNumber : Val → LogEntry
  | nonStringKey : List InvalidPair → LogEntry
deriving DecidableEq, Repr

/-- Is the entry the dangling-key diagnostic? -/
def LogEntry.isOdd : LogEntry → Bool
  | .oddNumber _ => true
  | _ => false

/-- Is the entry the non-string-key diagnostic? -/
def LogEntry.isNonString : LogEntry → Bool
  | .nonStringKey _ => true
  | _ => false

/-- The `sweetenFields` loop at position `i`: returns the emitted fields,
the collected invalid pairs, and the diagnostics emitted from inside the
loop. -/
def sweetenGo : List Val → Nat → List Field × List InvalidPair × List LogEntry
  | [], _ => ([], [], [])
  | .fld k v :: rest, i =>
    ((k, v) :: (sweetenGo rest (i + 1)).1,
     (sweetenGo rest (i + 1)).2.1,
     (sweetenGo rest (i + 1)).2.2)
  | a :: [], _ => ([], [], [LogEntry.oddNumber a])
  | .str s :: v :: rest, i =>
    ((s, v) :: (sweetenGo rest (i + 2)).1,
     (sweetenGo rest (i + 2)).2.1,
     (sweetenGo rest (i + 2)).2.2)
  | a :: v :: rest, i =>
    ((sweetenGo rest (i + 2)).1,
     ⟨i, a, v⟩ :: (sweetenGo rest (i + 2)).2.1,
     (sweetenGo rest (i + 2)).2.2)

/-- `sweetenFields`: empty input short-circuits; otherwise the loop runs
from position 0 and, when any invalid pairs were collected, exactly one
`_nonStringKeyErrMsg` diagnostic carrying all of them is appended.  The
function is total: no input makes the call fail or abort. -/
def sweetenFields (args : List Val) : List Field × List InvalidPair × List LogEntry :=
  if args.isEmpty then ([], [], [])
  else
    let r := sweetenGo args 0
    (r.1, r.2.1,
     r.2.2 ++ if r.2.1.isEmpty then [] else [LogEntry.nonStringKey r.2.1])

/-! ## Concrete instances used by counterexamples and witnesses -/

/-- A concrete span with trace identifier "abc" and span identifier "def". -/
def spanA : Span := { traceID := "abc", spanID := "def", attrs := [] }

/-- A context carrying the active span `spanA`. -/
def ctxSpanA : Ctx := { span := some spanA }

/-- A context carrying no active span. -/
def ctxBare : Ctx := { span := none }

/-- A concrete underlying logger with no names, no fields, flush succeeding. -/
def baseA : ZapLogger := { names := [], fields := [], syncErr := none }

/-- A concrete `TraceLogger` bound to the span-carrying context `ctxSpanA`. -/
def loggerA : TraceLogger := { base := baseA, ctx := ctxSpanA }

/-- A concrete request whose header map is store slot 0 (initially empty)
and whose context carries `spanA`. -/
def reqA : Request := { headerRef := 0, url := "http://example", ctx := ctxSpanA }

/-- A header store with one live header map, the empty one, at slot 0. -/
def worldA : HeaderWorld := ⟨[[]]⟩

/-! ## Theorems -/

/-- C6: for every argument sequence, `parseArguments` returns exactly the
subsequence of typed-field arguments (in their original relative order) as
the field sequence and exactly the subsequence of trace-attribute arguments
(in their original relative order) as the tag sequence; every argument of
any other type contributes to neither output and causes no error. -/
theorem parseArguments_partitions (args : List Val) :
    parseArguments args = (args.filterMap Val.fldOf, args.filterMap Val.attrOf) := by
  induction args with
  | nil => rfl
  | cons a rest ih =>
    cases a <;> simp [parseArguments, Val.fldOf, Val.attrOf, ih]

/-- C8: `tagSpan` on a context with no active span returns the context
untouched; with zero attributes it returns the context untouched whatever
the span state; with an active span it attaches all given attributes to
that span, in order.  The operation is total, so it never errors. -/
theorem tagSpan_noop_and_attach (s : Span) (tags : List Attr) (c : Ctx) :
    tagSpan { span := none } tags = { span := none } ∧
    tagSpan c [] = c ∧
    tagSpan { span := some s } tags = { span := some { s with attrs := s.attrs ++ tags } } := by
  refine ⟨rfl, ?_, rfl⟩
  obtain ⟨sp⟩ := c
  cases sp <;> simp [tagSpan, SpanFromContext, Span.SetAttributes]

/-- C9: `Sync` succeeds exactly when the underlying logger's flush
succeeds, and when the flush fails the returned failure is a wrapper that
still contains the underlying error (unwrapping it recovers exactly the
underlying flush error — the failure is never swallowed). -/
theorem sync_propagates_wrapped (tl : TraceLogger) :
    (tl.Sync = none ↔ tl.base.Sync = none) ∧
    tl.Sync.bind GoErr.unwrap = tl.base.Sync := by
  obtain ⟨⟨n, f, se⟩, c⟩ := tl
  cases se <;> simp [TraceLogger.Sync, ZapLogger.Sync, GoErr.unwrap]

/-- C3: binding a context carrying an active span with trace identifier `T`
and span identifier `S` adds exactly four fields to the new logger's
persistent field set: `T` under the generic name "traceID" and the vendor
alias "dd.traceID", and `S` under "spanID" and "dd.spanID". -/
theorem setContext_span_adds_four_fields (tl : TraceLogger) (c : Ctx) (s : Span)
    (h : c.span = some s) :
    (tl.SetContext c).base.fields =
      tl.base.fields ++
        [("traceID", Val.str s.traceID), ("dd.traceID", Val.str s.traceID),
         ("spanID", Val.str s.spanID), ("dd.spanID", Val.str s.spanID)] ∧
    ((tl.SetContext c).base.fields).length = tl.base.fields.length + 4 := by
  constructor <;>
    simp [TraceLogger.SetContext, SpanFromContext, h, TraceLogger.With,
      ZapLogger.With, spanFields]

/-- Witness for C3 at the concrete logger `loggerA` and context `ctxSpanA`. -/
theorem setContext_span_adds_four_fields_witness :
    ctxSpanA.span = some spanA ∧
    ((loggerA.SetContext ctxSpanA).base.fields =
      loggerA.base.fields ++
        [("traceID", Val.str spanA.traceID), ("dd.traceID", Val.str spanA.traceID),
         ("spanID", Val.str spanA.spanID), ("dd.spanID", Val.str spanA.spanID)] ∧
     ((loggerA.SetContext ctxSpanA).base.fields).length = loggerA.base.fields.length + 4) :=
  ⟨rfl, setContext_span_adds_four_fields loggerA ctxSpanA spanA rfl⟩

/-- C1 (code bug): with no active span in the given context, `SetContext`
executes `return tl` — it hands back the receiver itself, so the result's
propagation context is the receiver's old context, not the given one (the
given context is silently dropped).  No fields are added and no error
occurs, but the claimed "new Logger whose propagation context is the given
context" is not what the code returns.  Evaluated at the concrete receiver
`loggerA` (bound to a span-carrying context) and the bare context. -/
theorem setContext_no_span_returns_receiver :
    loggerA.SetContext ctxBare = loggerA ∧
    (loggerA.SetContext ctxBare).ctx ≠ ctxBare ∧
    (loggerA.SetContext ctxBare).base.fields = loggerA.base.fields := by
  refine ⟨rfl, ?_, rfl⟩
  decide

/-- C2 (code bug): `WithRequest` copies the request struct shallowly, so
the copy shares the original's header map (same `headerRef`); injecting the
propagation headers into the copy therefore mutates the very header map the
caller's original request reads.  Evaluated at a concrete request with an
initially empty header map: after the call the original request's header
set has gained the "traceparent" header. -/
theorem withRequest_mutates_original_headers :
    (WithRequest ctxSpanA reqA worldA).1.headerRef = reqA.headerRef ∧
    (WithRequest ctxSpanA reqA worldA).2.get reqA.headerRef ≠ worldA.get reqA.headerRef ∧
    (WithRequest ctxSpanA reqA worldA).2.get reqA.headerRef = [("traceparent", "abc-def")] := by
  refine ⟨rfl, ?_, ?_⟩ <;> decide

/-- C7: value semantics of `With`, `Named` and the context bind.  A field
`f` newly added through one child (`parent.With fs1`) is visible in that
child but in no sibling: not in a `With` sibling that did not add it, not
in a `Named` sibling, and not in a `SetContext` sibling (whose only
possible additions are the four reserved correlation names).  The sibling's
field set is exactly the parent's fields followed by its own additions, so
the receiver's field set is never written through. -/
theorem with_children_isolated (parent : TraceLogger) (fs1 fs2 : List Field)
    (f : Field) (c : Ctx)
    (h1 : f ∈ fs1) (h2 : f ∉ parent.base.fields) (h3 : f ∉ fs2)
    (h4 : f.1 ≠ "traceID" ∧ f.1 ≠ "dd.traceID" ∧ f.1 ≠ "spanID" ∧ f.1 ≠ "dd.spanID") :
    f ∈ (parent.With fs1).base.fields ∧
    f ∉ (parent.With fs2).base.fields ∧
    f ∉ (parent.Named "scope").base.fields ∧
    f ∉ (parent.SetContext c).base.fields ∧
    (parent.With fs2).base.fields = parent.base.fields ++ fs2 := by
  obtain ⟨n1, n2, n3, n4⟩ := h4
  refine ⟨?_, ?_, ?_, ?_, rfl⟩
  · simp [TraceLogger.With, ZapLogger.With]
    exact Or.inr h1
  · simp [TraceLogger.With, ZapLogger.With]
    exact ⟨h2, h3⟩
  · simpa [TraceLogger.Named, ZapLogger.Named] using h2
  · obtain ⟨sp⟩ := c
    cases sp with
    | none => simpa [TraceLogger.SetContext, SpanFromContext] using h2
    | some s =>
      simp [TraceLogger.SetContext, SpanFromContext, TraceLogger.With,
        ZapLogger.With, spanFields]
      refine ⟨h2, ?_, ?_, ?_, ?_⟩ <;> intro hEq <;>
        first
          | exact n1 (by simpa using congrArg Prod.fst hEq)
          | exact n2 (by simpa using congrArg Prod.fst hEq)
          | exact n3 (by simpa using congrArg Prod.fst hEq)
          | exact n4 (by simpa using congrArg Prod.fst hEq)

/-- Witness for C7 at concrete parent `loggerA` (no persistent fields),
children adding `("x", 1)` and `("y", 2)` respectively. -/
theorem with_children_isolated_witness :
    (("x", Val.int 1) ∈ [(("x" : String), Val.int 1)] ∧
     ("x", Val.int 1) ∉ loggerA.base.fields ∧
     ("x", Val.int 1) ∉ [(("y" : String), Val.int 2)] ∧
     (("x" : String) ≠ "traceID" ∧ ("x" : String) ≠ "dd.traceID" ∧
      ("x" : String) ≠ "spanID" ∧ ("x" : String) ≠ "dd.spanID")) ∧
    (("x", Val.int 1) ∈ (loggerA.With [("x", Val.int 1)]).base.fields ∧
     ("x", Val.int 1) ∉ (loggerA.With [("y", Val.int 2)]).base.fields ∧
     ("x", Val.int 1) ∉ (loggerA.Named "scope").base.fields ∧
     ("x", Val.int 1) ∉ (loggerA.SetContext ctxSpanA).base.fields ∧
     (loggerA.With [("y", Val.int 2)]).base.fields =
       loggerA.base.fields ++ [("y", Val.int 2)]) :=
  ⟨⟨by decide, by decide, by decide, by decide, by decide, by decide, by decide⟩,
   with_children_isolated loggerA [("x", Val.int 1)] [("y", Val.int 2)]
     ("x", Val.int 1) ctxSpanA (by decide) (by decide) (by decide)
     ⟨by decide, by decide, by decide, by decide⟩⟩

/-- C10: `With` constructs the child with the `ctx` field left at its zero
value, so the receiver's bound context is never carried forward; hence a
span-carrying `SetContext` (which ends by calling `With`) also returns a
logger with an empty context, and a leveled call on that logger finds no
active span and performs no span tagging. -/
theorem with_drops_bound_context (tl : TraceLogger) (c : Ctx) (s : Span)
    (fs : List Field) (msg : String) (args : List Val)
    (h : c.span = some s) :
    (tl.With fs).ctx = Ctx.empty ∧
    (tl.SetContext c).ctx = Ctx.empty ∧
    ((tl.SetContext c).Info msg args).ctxAfter = Ctx.empty := by
  refine ⟨rfl, ?_, ?_⟩ <;>
    simp [TraceLogger.SetContext, SpanFromContext, h, TraceLogger.With,
      TraceLogger.Info, tagSpan, Ctx.empty]

/-- Witness for C10 at the concrete logger `loggerA` and span-carrying
context `ctxSpanA`. -/
theorem with_drops_bound_context_witness :
    ctxSpanA.span = some spanA ∧
    ((loggerA.With []).ctx = Ctx.empty ∧
     (loggerA.SetContext ctxSpanA).ctx = Ctx.empty ∧
     ((loggerA.SetContext ctxSpanA).Info "m" []).ctxAfter = Ctx.empty) :=
  ⟨rfl, with_drops_bound_context loggerA ctxSpanA spanA [] "m" [] rfl⟩

/-- The loop of `sweetenFields` never emits the non-string-key diagnostic
itself: that entry is only appended after the loop. -/
theorem go_filter_nonString (l : List Val) (i : Nat) :
    ((sweetenGo l i).2.2).filter LogEntry.isNonString = [] := by
  induction l, i using sweetenGo.induct with
  | case1 x => simp [sweetenGo]
  | case2 k v rest i ih => simpa [sweetenGo] using ih
  | case3 a x hna => cases a <;> simp_all [sweetenGo, LogEntry.isNonString]
  | case4 s v rest i ih => simpa [sweetenGo] using ih
  | case5 a v rest i hna hns ih => cases a <;> simp_all [sweetenGo]

/-- Compositionality of the pairing loop: a prefix that is consumed without
a dangling-key diagnostic is processed exactly as it would be alone, and
the remainder is processed from the position right after it. -/
theorem sweetenGo_append (l1 l2 : List Val) (i : Nat)
    (h : (sweetenGo l1 i).2.2 = []) :
    sweetenGo (l1 ++ l2) i =
      ((sweetenGo l1 i).1 ++ (sweetenGo l2 (i + l1.length)).1,
       (sweetenGo l1 i).2.1 ++ (sweetenGo l2 (i + l1.length)).2.1,
       (sweetenGo l2 (i + l1.length)).2.2) := by
  revert h
  induction l1, i using sweetenGo.induct with
  | case1 x => intro h; simp [sweetenGo]
  | case2 k v rest i ih =>
    intro h
    simp [sweetenGo] at h ⊢
    rw [ih h]
    simp [Nat.add_comm, Nat.add_assoc, Nat.add_left_comm]
  | case3 a x hna =>
    intro h
    exfalso
    cases a <;> simp_all [sweetenGo]
  | case4 s v rest i ih =>
    intro h
    simp [sweetenGo] at h ⊢
    rw [ih h]
    simp [Nat.add_comm, Nat.add_assoc, Nat.add_left_comm]
  | case5 a v rest i hna hns ih =>
    intro h
    cases a <;> simp_all [sweetenGo] <;>
      rw [show i + 2 + rest.length = i + (rest.length + 1 + 1) from by omega] <;>
      simp

/-- C4: a loose pair whose key is not string-typed (here sitting after any
cleanly-consumed prefix `l1`) emits no field — the field output is exactly
the prefix's fields followed by the remainder's fields — and is recorded as
exactly one `InvalidPair` carrying its position `l1.length`, its key and
its value; and the call emits exactly one non-string-key diagnostic entry,
listing the full invalid-pair collection.  `sweetenFields` is a total
function, so the call never fails or aborts. -/
theorem sweeten_nonstring_pair_recorded (l1 l2 : List Val) (k v : Val)
    (hclean : (sweetenGo l1 0).2.2 = [])
    (hk1 : k.isStr = false) (hk2 : k.isFld = false) :
    sweetenGo (l1 ++ k :: v :: l2) 0 =
      ((sweetenGo l1 0).1 ++ (sweetenGo l2 (l1.length + 2)).1,
       (sweetenGo l1 0).2.1 ++ ⟨l1.length, k, v⟩ :: (sweetenGo l2 (l1.length + 2)).2.1,
       (sweetenGo l2 (l1.length + 2)).2.2) ∧
    ((sweetenFields (l1 ++ k :: v :: l2)).2.2).filter LogEntry.isNonString =
      [LogEntry.nonStringKey ((sweetenFields (l1 ++ k :: v :: l2)).2.1)] ∧
    (sweetenFields (l1 ++ k :: v :: l2)).1 =
      (sweetenGo l1 0).1 ++ (sweetenGo l2 (l1.length + 2)).1 := by
  have hmid : sweetenGo (k :: v :: l2) l1.length =
      ((sweetenGo l2 (l1.length + 2)).1,
       InvalidPair.mk l1.length k v :: (sweetenGo l2 (l1.length + 2)).2.1,
       (sweetenGo l2 (l1.length + 2)).2.2) := by
    cases k <;> simp_all [sweetenGo, Val.isStr, Val.isFld]
  have happ := sweetenGo_append l1 (k :: v :: l2) 0 hclean
  simp only [Nat.zero_add] at happ
  rw [hmid] at happ
  have hx : (l1 ++ k :: v :: l2).isEmpty = false := by cases l1 <;> simp
  refine ⟨happ, ?_, ?_⟩
  · simp only [sweetenFields, hx, Bool.false_eq_true, if_false, happ]
    simp [List.filter_append, go_filter_nonString, LogEntry.isNonString]
  · simp only [sweetenFields, hx, Bool.false_eq_true, if_false, happ]

/-- Witness for C4: the sequence `["a", 1, 5, "x", Field "f" "z"]` — the
pair `(5, "x")` has the non-string key `5` at position 2. -/
theorem sweeten_nonstring_pair_recorded_witness :
    (sweetenGo [Val.str "a", Val.int 1] 0).2.2 = [] ∧
    (Val.int 5).isStr = false ∧
    (Val.int 5).isFld = false ∧
    (sweetenGo ([Val.str "a", Val.int 1] ++ Val.int 5 :: Val.str "x" ::
        [Val.fld "f" (Val.str "z")]) 0 =
      ((sweetenGo [Val.str "a", Val.int 1] 0).1 ++
        (sweetenGo [Val.fld "f" (Val.str "z")]
          ([Val.str "a", Val.int 1].length + 2)).1,
       (sweetenGo [Val.str "a", Val.int 1] 0).2.1 ++
        InvalidPair.mk [Val.str "a", Val.int 1].length (Val.int 5) (Val.str "x") ::
          (sweetenGo [Val.fld "f" (Val.str "z")]
            ([Val.str "a", Val.int 1].length + 2)).2.1,
       (sweetenGo [Val.fld "f" (Val.str "z")]
         ([Val.str "a", Val.int 1].length + 2)).2.2) ∧
     ((sweetenFields ([Val.str "a", Val.int 1] ++ Val.int 5 :: Val.str "x" ::
         [Val.fld "f" (Val.str "z")])).2.2).filter LogEntry.isNonString =
       [LogEntry.nonStringKey ((sweetenFields ([Val.str "a", Val.int 1] ++
         Val.int 5 :: Val.str "x" :: [Val.fld "f" (Val.str "z")])).2.1)] ∧
     (sweetenFields ([Val.str "a", Val.int 1] ++ Val.int 5 :: Val.str "x" ::
         [Val.fld "f" (Val.str "z")])).1 =
       (sweetenGo [Val.str "a", Val.int 1] 0).1 ++
         (sweetenGo [Val.fld "f" (Val.str "z")]
           ([Val.str "a", Val.int 1].length + 2)).1) :=
  ⟨by decide, by decide, by decide,
   sweeten_nonstring_pair_recorded [Val.str "a", Val.int 1]
     [Val.fld "f" (Val.str "z")] (Val.int 5) (Val.str "x")
     (by decide) (by decide) (by decide)⟩

/-- C5: a dangling final key (a trailing non-field element after a
cleanly-consumed prefix) produces no field — the field output is exactly
the prefix's fields — triggers the dangling-key diagnostic referencing that
element, and the loop stops consuming there; a loose pair with string key
`s0` still produces the field named `s0` with the paired value. -/
theorem sweeten_dangling_final_key (l1 : List Val) (a : Val) (s0 : String) (w : Val)
    (hclean : (sweetenGo l1 0).2.2 = []) (ha : a.isFld = false) :
    sweetenGo (l1 ++ [a]) 0 =
      ((sweetenGo l1 0).1, (sweetenGo l1 0).2.1, [LogEntry.oddNumber a]) ∧
    (sweetenFields (l1 ++ [a])).1 = (sweetenGo l1 0).1 ∧
    (sweetenFields (l1 ++ [a])).2.2 =
      LogEntry.oddNumber a ::
        (if (sweetenGo l1 0).2.1.isEmpty then [] else
          [LogEntry.nonStringKey (sweetenGo l1 0).2.1]) ∧
    sweetenFields [Val.str s0, w] = ([(s0, w)], [], []) := by
  have hmid : sweetenGo [a] l1.length = ([], [], [LogEntry.oddNumber a]) := by
    cases a <;> simp_all [sweetenGo, Val.isFld]
  have happ := sweetenGo_append l1 [a] 0 hclean
  simp only [Nat.zero_add] at happ
  rw [hmid] at happ
  simp only [List.append_nil] at happ
  have hx : (l1 ++ [a]).isEmpty = false := by cases l1 <;> simp
  refine ⟨happ, ?_, ?_, ?_⟩
  · simp only [sweetenFields, hx, Bool.false_eq_true, if_false, happ]
  · simp only [sweetenFields, hx, Bool.false_eq_true, if_false, happ]
    simp
  · simp [sweetenFields, sweetenGo]

/-- Witness for C5: the sequence `["a", 1, 7]` — position 2 holds the
dangling key `7`; the preceding pair `("a", 1)` still yields its field. -/
theorem sweeten_dangling_final_key_witness :
    (sweetenGo [Val.str "a", Val.int 1] 0).2.2 = [] ∧
    (Val.int 7).isFld = false ∧
    (sweetenGo ([Val.str "a", Val.int 1] ++ [Val.int 7]) 0 =
      ((sweetenGo [Val.str "a", Val.int 1] 0).1,
       (sweetenGo [Val.str "a", Val.int 1] 0).2.1,
       [LogEntry.oddNumber (Val.int 7)]) ∧
     (sweetenFields ([Val.str "a", Val.int 1] ++ [Val.int 7])).1 =
       (sweetenGo [Val.str "a", Val.int 1] 0).1 ∧
     (sweetenFields ([Val.str "a", Val.int 1] ++ [Val.int 7])).2.2 =
       LogEntry.oddNumber (Val.int 7) ::
         (if (sweetenGo [Val.str "a", Val.int 1] 0).2.1.isEmpty then [] else
           [LogEntry.nonStringKey (sweetenGo [Val.str "a", Val.int 1] 0).2.1]) ∧
     sweetenFields [Val.str "name", Val.int 9] = ([("name", Val.int 9)], [], [])) :=
  ⟨by decide, by decide,
   sweeten_dangling_final_key [Val.str "a", Val.int 1] (Val.int 7) "name"
     (Val.int 9) (by decide) (by decide)⟩

end Tracelog
